import Mathlib

/-
Shallow embedding of the microplastics-detection backend
(backend/config.py, backend/detector.py, backend/app.py) together with
proofs of its specified properties.

Modelling conventions:
  * Python floats are modelled as rationals (ℚ); `round(x, n)` is modelled
    by `roundTo n` below (scale by 10^n, round to the nearest integer,
    scale back).  Python rounds exact ties to even while `round` in
    Mathlib rounds them up; every property proved here depends only on
    the bounds `|roundTo n q - q| ≤ 1/(2*10^n)` and on monotonicity,
    which hold for either tie-breaking rule.
  * Images are width, height and an abstract pixel payload.
  * External libraries (PIL drawing/JPEG encoding, the YOLO model,
    base64 decoding, PIL image parsing) are abstracted as function
    parameters; a failing parse/decode is `none`.
  * numpy's seeded generator is abstracted by the list of values it
    yields, constrained exactly by the ranges the numpy API guarantees
    for the calls the code makes.
-/

/-! ## Rounding: the model of Python `round(x, n)` -/

/-- Model of Python `round(q, p)` on rationals: scale by `10^p`, round to the
nearest integer, scale back. -/
def roundTo (p : ℕ) (q : ℚ) : ℚ :=
  ((round (q * (10 ^ p : ℚ)) : ℤ) : ℚ) / (10 ^ p : ℚ)

/-- Model of `round(x, 4)` as used for confidences. -/
def round4 : ℚ → ℚ := roundTo 4

/-- Model of `round(x, 2)` as used for bounding-box coordinates. -/
def round2 : ℚ → ℚ := roundTo 2

theorem roundTo_le (p : ℕ) (q : ℚ) : roundTo p q ≤ q + 1 / (2 * 10 ^ p) := by
  have hd : (0 : ℚ) < 10 ^ p := by positivity
  have h := abs_sub_round (q * (10 ^ p : ℚ))
  rw [abs_le] at h
  rw [roundTo, div_le_iff₀ hd]
  have : (q + 1 / (2 * 10 ^ p)) * 10 ^ p = q * 10 ^ p + 1 / 2 := by
    field_simp
    ring
  rw [this]
  linarith [h.1]

theorem le_roundTo (p : ℕ) (q : ℚ) : q - 1 / (2 * 10 ^ p) ≤ roundTo p q := by
  have hd : (0 : ℚ) < 10 ^ p := by positivity
  have h := abs_sub_round (q * (10 ^ p : ℚ))
  rw [abs_le] at h
  rw [roundTo, le_div_iff₀ hd]
  have : (q - 1 / (2 * 10 ^ p)) * 10 ^ p = q * 10 ^ p - 1 / 2 := by
    field_simp
    ring
  rw [this]
  linarith [h.2]

theorem roundTo_mono (p : ℕ) {a b : ℚ} (hab : a ≤ b) : roundTo p a ≤ roundTo p b := by
  have hd : (0 : ℚ) < 10 ^ p := by positivity
  have hm : a * (10 ^ p : ℚ) ≤ b * (10 ^ p : ℚ) :=
    mul_le_mul_of_nonneg_right hab (le_of_lt hd)
  have : round (a * (10 ^ p : ℚ)) ≤ round (b * (10 ^ p : ℚ)) := by
    rw [round_eq, round_eq]
    exact Int.floor_mono (by linarith)
  rw [roundTo, roundTo]
  gcongr

/-! ## Configuration (backend/config.py) -/

/-- The fixed 4-entry class table `CLASS_NAMES` (Python dicts preserve
insertion order, so this is an ordered association list). -/
def CLASS_NAMES : List (ℕ × String) :=
  [(0, "Fragment"), (1, "Fiber"), (2, "Film"), (3, "Pellet")]

/-- The upload extension allow-list `ALLOWED_EXTENSIONS`. -/
def ALLOWED_EXTENSIONS : List String :=
  ["png", "jpg", "jpeg", "bmp", "tiff", "webp"]

/-! ## Data model -/

/-- An input image: pixel dimensions plus abstract pixel content. -/
structure Img where
  width : ℕ
  height : ℕ
  pixels : List ℕ
deriving DecidableEq

/-- An axis-aligned bounding box in pixel coordinates. -/
structure BBox where
  x1 : ℚ
  y1 : ℚ
  x2 : ℚ
  y2 : ℚ
deriving DecidableEq

/-- One detection record as emitted by the detector. -/
structure Detection where
  class_id : ℕ
  class_name : String
  confidence : ℚ
  bbox : BBox
deriving DecidableEq

/-- The summary dict built by `_build_summary`; the demo path additionally
sets `demo_mode` to true (absent key modelled as `false`). -/
structure Summary where
  total_particles : ℕ
  counts_by_type : List (String × ℕ)
  avg_confidence : ℚ
  max_confidence : ℚ
  demo_mode : Bool := false
deriving DecidableEq

/-! ## Summary construction (detector.py, `_build_summary`) -/

/-- One step of the counting loop `counts[name] = counts.get(name, 0) + 1`
on an insertion-ordered association list (the Python dict). -/
def bumpCount : List (String × ℕ) → String → List (String × ℕ)
  | [], name => [(name, 1)]
  | (k, v) :: rest, name =>
      if k = name then (k, v + 1) :: rest else (k, v) :: bumpCount rest name

/-- Sum of the values of a counts dict. -/
def sumValues (l : List (String × ℕ)) : ℕ :=
  (l.map Prod.snd).sum

/-- Model of `np.max` on a nonempty list (the code guards emptiness
explicitly, so the `[]` case is never reached; it returns 0 there). -/
def npMax : List ℚ → ℚ
  | [] => 0
  | c :: cs => cs.foldl max c

/-- Embedding of `MicroplasticsDetector._build_summary`. -/
def build_summary (detections : List Detection) : Summary :=
  let counts := detections.foldl (fun acc det => bumpCount acc det.class_name) []
  let confidences := detections.map Detection.confidence
  { total_particles := detections.length
    counts_by_type := counts
    avg_confidence :=
      if confidences.isEmpty then 0
      else round4 (confidences.sum / (confidences.length : ℚ))
    max_confidence :=
      if confidences.isEmpty then 0
      else round4 (npMax confidences) }

theorem sumValues_bumpCount (acc : List (String × ℕ)) (name : String) :
    sumValues (bumpCount acc name) = sumValues acc + 1 := by
  induction acc with
  | nil => simp [bumpCount, sumValues]
  | cons p rest ih =>
      obtain ⟨k, v⟩ := p
      by_cases h : k = name
      · simp [bumpCount, h, sumValues, List.map_cons]
        omega
      · simp [bumpCount, h, sumValues, List.map_cons] at ih ⊢
        omega

theorem sumValues_countsFold (dets : List Detection) (acc : List (String × ℕ)) :
    sumValues (dets.foldl (fun a det => bumpCount a det.class_name) acc) =
      sumValues acc + dets.length := by
  induction dets generalizing acc with
  | nil => simp
  | cons d rest ih =>
      simp only [List.foldl_cons, List.length_cons]
      rw [ih, sumValues_bumpCount]
      omega

theorem le_foldl_max_self (a : ℚ) (l : List ℚ) : a ≤ l.foldl max a := by
  induction l generalizing a with
  | nil => simp
  | cons x xs ih => exact le_trans (le_max_left a x) (ih (max a x))

theorem le_foldl_max_of_mem (a : ℚ) {c : ℚ} {l : List ℚ} (h : c ∈ l) :
    c ≤ l.foldl max a := by
  induction l generalizing a with
  | nil => cases h
  | cons x xs ih =>
      rcases List.mem_cons.mp h with h | h
      · subst h
        exact le_trans (le_max_right a c) (le_foldl_max_self (max a c) xs)
      · exact ih (max a x) h

theorem foldl_max_mem (a : ℚ) (l : List ℚ) : l.foldl max a ∈ a :: l := by
  induction l generalizing a with
  | nil => simp
  | cons x xs ih =>
      simp only [List.foldl_cons]
      rcases List.mem_cons.mp (ih (max a x)) with h | h
      · rcases max_choice a x with hm | hm <;> rw [h, hm]
        · exact List.mem_cons_self _ _
        · exact List.mem_cons_of_mem _ (List.mem_cons_self _ _)
      · exact List.mem_cons_of_mem _ (List.mem_cons_of_mem _ h)

theorem le_npMax_of_mem {c : ℚ} {cs : List ℚ} (h : c ∈ cs) : c ≤ npMax cs := by
  cases cs with
  | nil => cases h
  | cons a rest =>
      simp only [npMax]
      rcases List.mem_cons.mp h with h1 | h1
      · subst h1
        exact le_foldl_max_self c rest
      · exact le_foldl_max_of_mem a h1

theorem npMax_mem {cs : List ℚ} (h : cs ≠ []) : npMax cs ∈ cs := by
  cases cs with
  | nil => exact absurd rfl h
  | cons a rest =>
      simp only [npMax]
      exact foldl_max_mem a rest

/-- C1: the summary built from any detection list satisfies
`total_particles = length`, the values of `counts_by_type` sum to
`total_particles`, the averages are 0 on the empty list (explicit branch),
and otherwise `avg_confidence` is the rounded mean and `max_confidence`
the rounded maximum of the confidences. -/
theorem build_summary_invariants (dets : List Detection) :
    (build_summary dets).total_particles = dets.length ∧
    sumValues (build_summary dets).counts_by_type = (build_summary dets).total_particles ∧
    (dets = [] →
      (build_summary dets).avg_confidence = 0 ∧ (build_summary dets).max_confidence = 0) ∧
    (dets ≠ [] →
      (build_summary dets).avg_confidence =
          round4 ((dets.map Detection.confidence).sum / (dets.length : ℚ)) ∧
      ∃ m, (build_summary dets).max_confidence = round4 m ∧
        m ∈ dets.map Detection.confidence ∧
        ∀ c ∈ dets.map Detection.confidence, c ≤ m) := by
  refine ⟨rfl, ?_, ?_, ?_⟩
  · show sumValues (dets.foldl (fun a det => bumpCount a det.class_name) []) = dets.length
    rw [sumValues_countsFold]
    simp [sumValues]
  · intro h
    subst h
    simp [build_summary]
  · intro h
    have hne : ¬(dets.map Detection.confidence).isEmpty := by
      simpa [List.isEmpty_iff] using h
    refine ⟨?_, npMax (dets.map Detection.confidence), ?_, ?_, ?_⟩
    · simp only [build_summary, hne, if_false, Bool.false_eq_true]
      rw [List.length_map]
    · simp only [build_summary, hne, if_false, Bool.false_eq_true]
    · exact npMax_mem (by simpa [List.isEmpty_iff] using hne)
    · intro c hc
      exact le_npMax_of_mem hc

/-- A concrete two-element detection list used to instantiate summary
theorems. -/
def sampleDets : List Detection :=
  [⟨0, "Fragment", 1/2, ⟨0, 0, 1, 1⟩⟩, ⟨1, "Fiber", 3/4, ⟨0, 0, 1, 1⟩⟩]

/-- Concrete instantiation of the C1 theorem on a two-element detection
list, discharging the nonemptiness implication there. -/
theorem build_summary_invariants_witness :
    (build_summary sampleDets).avg_confidence =
      round4 ((sampleDets.map Detection.confidence).sum / (sampleDets.length : ℚ)) := by
  exact ((build_summary_invariants sampleDets).2.2.2 (by simp [sampleDets])).1

/-! ## Demo detection path (detector.py, `_demo_detect`) -/

/-- One loop iteration's pseudo-random draws in `_demo_detect`:
`rng.integers(0, 4)`, `rng.uniform(0.45, 0.97)`, `rng.uniform(0.1, 0.9,
size=2)` and `rng.uniform(0.04, 0.15, size=2)`. -/
structure IterDraw where
  cls_id : ℕ
  conf : ℚ
  cx : ℚ
  cy : ℚ
  bw : ℚ
  bh : ℚ
deriving DecidableEq

/-- The ranges numpy guarantees for the draws made by one loop iteration
of `_demo_detect`. -/
def drawBounds (d : IterDraw) : Prop :=
  d.cls_id ≤ 3 ∧ 9/20 ≤ d.conf ∧ d.conf ≤ 97/100 ∧
  1/10 ≤ d.cx ∧ d.cx ≤ 9/10 ∧ 1/10 ≤ d.cy ∧ d.cy ≤ 9/10 ∧
  1/25 ≤ d.bw ∧ d.bw ≤ 3/20 ∧ 1/25 ≤ d.bh ∧ d.bh ≤ 3/20

/-- The ranges numpy guarantees for the whole stream of draws consumed by
one `_demo_detect` call: the loop count `n = rng.integers(3, 8)` lies in
`[3,7]` (here `draws.length` plays the role of `n`), and every
iteration's draws are in range. -/
def drawsWF (draws : List IterDraw) : Prop :=
  3 ≤ draws.length ∧ draws.length ≤ 7 ∧ ∀ d ∈ draws, drawBounds d

/-- The demo detection built from one iteration's draws (the body of the
loop in `_demo_detect`). -/
def demoDetection (w h : ℕ) (d : IterDraw) : Detection :=
  { class_id := d.cls_id
    class_name := (List.lookup d.cls_id CLASS_NAMES).getD "KeyError"
    confidence := round4 d.conf
    bbox := { x1 := round2 ((d.cx - d.bw / 2) * (w : ℚ))
              y1 := round2 ((d.cy - d.bh / 2) * (h : ℚ))
              x2 := round2 ((d.cx + d.bw / 2) * (w : ℚ))
              y2 := round2 ((d.cy + d.bh / 2) * (h : ℚ)) } }

/-- Annotation (`_annotate`): PIL drawing plus JPEG encoding, abstracted
as an arbitrary function from the image and the detections to bytes. -/
def Annotator : Type := Img → List Detection → List ℕ

/-- The result dict of `MicroplasticsDetector.detect`. -/
structure DetectResult where
  detections : List Detection
  summary : Summary
  annotated_image : List ℕ
deriving DecidableEq

/-- Embedding of `MicroplasticsDetector._demo_detect`; `draws` is the
stream the seeded generator yields on this call. -/
def demo_detect (annotate : Annotator) (img : Img) (draws : List IterDraw) : DetectResult :=
  let dets := draws.map (demoDetection img.width img.height)
  { detections := dets
    summary := { build_summary dets with demo_mode := true }
    annotated_image := annotate img dets }

theorem round2_coord_nonneg {c b : ℚ} {w : ℕ} (hc : 1/10 ≤ c) (hb : b ≤ 3/20)
    (hw : 1 ≤ w) : 0 ≤ round2 ((c - b / 2) * (w : ℚ)) := by
  have hwq : (1 : ℚ) ≤ (w : ℚ) := by exact_mod_cast hw
  have h1 : (1/40 : ℚ) ≤ c - b / 2 := by linarith
  have h2 : (1/40 : ℚ) * 1 ≤ (c - b / 2) * (w : ℚ) :=
    mul_le_mul h1 hwq (by norm_num) (by linarith)
  have h3 := le_roundTo 2 ((c - b / 2) * (w : ℚ))
  rw [show (1 : ℚ) / (2 * 10 ^ 2) = 1/200 by norm_num] at h3
  unfold round2
  linarith

theorem round2_coord_le {c b : ℚ} {w : ℕ} (hc : c ≤ 9/10) (hb : b ≤ 3/20)
    (hw : 1 ≤ w) : round2 ((c + b / 2) * (w : ℚ)) ≤ (w : ℚ) := by
  have hwq : (1 : ℚ) ≤ (w : ℚ) := by exact_mod_cast hw
  have h1 : c + b / 2 ≤ 39/40 := by linarith
  have h2 : (c + b / 2) * (w : ℚ) ≤ (39/40) * (w : ℚ) :=
    mul_le_mul_of_nonneg_right h1 (by linarith)
  have h3 := roundTo_le 2 ((c + b / 2) * (w : ℚ))
  rw [show (1 : ℚ) / (2 * 10 ^ 2) = 1/200 by norm_num] at h3
  unfold round2
  linarith

theorem round2_coord_lt {c b : ℚ} {w : ℕ} (hb : 1/25 ≤ b) (hw : 1 ≤ w) :
    round2 ((c - b / 2) * (w : ℚ)) < round2 ((c + b / 2) * (w : ℚ)) := by
  have hwq : (1 : ℚ) ≤ (w : ℚ) := by exact_mod_cast hw
  have h1 : (1/25 : ℚ) * 1 ≤ b * (w : ℚ) :=
    mul_le_mul hb hwq (by norm_num) (by linarith)
  have h2 := roundTo_le 2 ((c - b / 2) * (w : ℚ))
  have h3 := le_roundTo 2 ((c + b / 2) * (w : ℚ))
  rw [show (1 : ℚ) / (2 * 10 ^ 2) = 1/200 by norm_num] at h2 h3
  unfold round2
  have hsub : (c + b / 2) * (w : ℚ) - (c - b / 2) * (w : ℚ) = b * (w : ℚ) := by ring
  linarith

theorem round4_conf_lower {q : ℚ} (h1 : 9/20 ≤ q) : 9/20 ≤ round4 q := by
  have hfix : round4 (9/20 : ℚ) = 9/20 := by
    norm_num [round4, roundTo, round_eq]
  rw [← hfix]
  exact roundTo_mono 4 h1

theorem round4_conf_upper {q : ℚ} (h2 : q ≤ 97/100) : round4 q ≤ 97/100 := by
  have hfix : round4 (97/100 : ℚ) = 97/100 := by
    norm_num [round4, roundTo, round_eq]
  rw [← hfix]
  exact roundTo_mono 4 h2

/-- C2: on any image of positive width and height, the demo path produces
between 3 and 7 detections; every detection has class id in {0,1,2,3},
confidence in [0.45, 0.97], and a bounding box with x1 < x2 and y1 < y2
lying fully inside the image bounds. -/
theorem demo_detect_bounds (annotate : Annotator) (img : Img) (draws : List IterDraw)
    (hwf : drawsWF draws) (hw : 0 < img.width) (hh : 0 < img.height) :
    3 ≤ (demo_detect annotate img draws).detections.length ∧
    (demo_detect annotate img draws).detections.length ≤ 7 ∧
    ∀ det ∈ (demo_detect annotate img draws).detections,
      det.class_id ≤ 3 ∧
      9/20 ≤ det.confidence ∧ det.confidence ≤ 97/100 ∧
      0 ≤ det.bbox.x1 ∧ det.bbox.x2 ≤ (img.width : ℚ) ∧ det.bbox.x1 < det.bbox.x2 ∧
      0 ≤ det.bbox.y1 ∧ det.bbox.y2 ≤ (img.height : ℚ) ∧ det.bbox.y1 < det.bbox.y2 := by
  obtain ⟨h3, h7, hball⟩ := hwf
  have hlen : (demo_detect annotate img draws).detections.length = draws.length := by
    simp [demo_detect]
  refine ⟨by omega, by omega, ?_⟩
  intro det hdet
  simp only [demo_detect, List.mem_map] at hdet
  obtain ⟨d, hd, rfl⟩ := hdet
  obtain ⟨hcls, hc1, hc2, hcx1, hcx2, hcy1, hcy2, hbw1, hbw2, hbh1, hbh2⟩ := hball d hd
  refine ⟨hcls, round4_conf_lower hc1, round4_conf_upper hc2, ?_, ?_, ?_, ?_, ?_, ?_⟩
  · exact round2_coord_nonneg hcx1 hbw2 hw
  · exact round2_coord_le hcx2 hbw2 hw
  · exact round2_coord_lt hbw1 hw
  · exact round2_coord_nonneg hcy1 hbh2 hh
  · exact round2_coord_le hcy2 hbh2 hh
  · exact round2_coord_lt hbh1 hh

/-- A concrete three-element draw stream satisfying the numpy range
contract. -/
def sampleDraws : List IterDraw :=
  [⟨1, 1/2, 1/2, 1/2, 1/10, 1/10⟩, ⟨0, 9/20, 1/10, 9/10, 1/25, 3/20⟩,
   ⟨3, 97/100, 9/10, 1/10, 3/20, 1/25⟩]

/-- Concrete instantiation of the C2 theorem: a 100×80 image and a
three-draw stream, with the range and positivity hypotheses discharged. -/
theorem demo_detect_bounds_witness :
    3 ≤ (demo_detect (fun _ _ => []) ⟨100, 80, []⟩ sampleDraws).detections.length ∧
    (demo_detect (fun _ _ => []) ⟨100, 80, []⟩ sampleDraws).detections.length ≤ 7 := by
  have h := demo_detect_bounds (fun _ _ => []) ⟨100, 80, []⟩ sampleDraws
    (by refine ⟨by norm_num [sampleDraws], by norm_num [sampleDraws], ?_⟩
        intro d hd
        simp only [sampleDraws, List.mem_cons, List.not_mem_nil, or_false] at hd
        rcases hd with rfl | rfl | rfl <;> norm_num [drawBounds])
    (by norm_num) (by norm_num)
  exact ⟨h.1, h.2.1⟩

/-- C9: the demo path is deterministic in everything but the image
dimensions: two images of equal width and height yield identical
detection lists and identical summaries, with `demo_mode` set.  The
generator is re-seeded with the fixed seed 42 on every call, so every
call consumes the same draw stream; that is modelled by passing the same
`draws` to both calls. -/
theorem demo_detect_deterministic (a₁ a₂ : Annotator) (img₁ img₂ : Img)
    (draws : List IterDraw) (hw : img₁.width = img₂.width)
    (hh : img₁.height = img₂.height) :
    (demo_detect a₁ img₁ draws).detections = (demo_detect a₂ img₂ draws).detections ∧
    (demo_detect a₁ img₁ draws).summary = (demo_detect a₂ img₂ draws).summary ∧
    (demo_detect a₁ img₁ draws).summary.demo_mode = true := by
  simp [demo_detect, hw, hh]

/-- Concrete instantiation of the C9 theorem: two 4×5 images with
different pixel payloads and different annotators give identical
detections and summaries. -/
theorem demo_detect_deterministic_witness :
    (demo_detect (fun _ _ => [7]) ⟨4, 5, [1]⟩ sampleDraws).detections =
        (demo_detect (fun _ _ => [8]) ⟨4, 5, [2, 3]⟩ sampleDraws).detections ∧
    (demo_detect (fun _ _ => [7]) ⟨4, 5, [1]⟩ sampleDraws).summary =
        (demo_detect (fun _ _ => [8]) ⟨4, 5, [2, 3]⟩ sampleDraws).summary := by
  have h := demo_detect_deterministic (fun _ _ => [7]) (fun _ _ => [8])
    ⟨4, 5, [1]⟩ ⟨4, 5, [2, 3]⟩ sampleDraws rfl rfl
  exact ⟨h.1, h.2.1⟩

/-! ## Real inference path (detector.py, `_real_detect`) -/

/-- One raw box as returned by the underlying model: class index,
confidence score, and xyxy pixel coordinates.  The model itself is
opaque; it owns thresholding and suppression. -/
structure RawBox where
  cls : ℕ
  conf : ℚ
  x1 : ℚ
  y1 : ℚ
  x2 : ℚ
  y2 : ℚ
deriving DecidableEq

/-- The detection dict built from one raw box in the `_real_detect` loop:
`CLASS_NAMES.get(cls_id, f"class_<id>")`, confidence rounded to 4
decimals, coordinates rounded to 2. -/
def realDetection (b : RawBox) : Detection :=
  { class_id := b.cls
    class_name := (List.lookup b.cls CLASS_NAMES).getD ("class_" ++ toString b.cls)
    confidence := round4 b.conf
    bbox := { x1 := round2 b.x1, y1 := round2 b.y1
              x2 := round2 b.x2, y2 := round2 b.y2 } }

/-- Embedding of `MicroplasticsDetector._real_detect`; `model` abstracts
`self.model.predict` already applied to the configured thresholds. -/
def real_detect (annotate : Annotator) (model : Img → List RawBox) (img : Img) :
    DetectResult :=
  let dets := (model img).map realDetection
  { detections := dets
    summary := build_summary dets
    annotated_image := annotate img dets }

/-- C8: every box the model returns yields a detection whose class name is
the table entry when the class id is a key of the 4-entry table and the
placeholder `class_<id>` when it is not, whose confidence is the raw
score rounded to 4 decimals, and whose coordinates are rounded to 2. -/
theorem real_detect_fields (annotate : Annotator) (model : Img → List RawBox)
    (img : Img) (b : RawBox) (hb : b ∈ model img) :
    ∃ det ∈ (real_detect annotate model img).detections,
      det.class_id = b.cls ∧
      (∀ name, (b.cls, name) ∈ CLASS_NAMES → det.class_name = name) ∧
      ((∀ name, (b.cls, name) ∉ CLASS_NAMES) →
        det.class_name = "class_" ++ toString b.cls) ∧
      det.confidence = round4 b.conf ∧
      det.bbox.x1 = round2 b.x1 ∧ det.bbox.y1 = round2 b.y1 ∧
      det.bbox.x2 = round2 b.x2 ∧ det.bbox.y2 = round2 b.y2 := by
  refine ⟨realDetection b, ?_, rfl, ?_, ?_, rfl, rfl, rfl, rfl, rfl⟩
  · simp only [real_detect]
    exact List.mem_map_of_mem realDetection hb
  · intro name hmem
    simp only [CLASS_NAMES, List.mem_cons, List.not_mem_nil, or_false,
      Prod.mk.injEq] at hmem
    rcases hmem with ⟨h1, h2⟩ | ⟨h1, h2⟩ | ⟨h1, h2⟩ | ⟨h1, h2⟩ <;>
      · subst h2
        simp [realDetection, CLASS_NAMES, List.lookup, h1]
  · intro hnone
    have h0 : b.cls ≠ 0 := fun h => hnone "Fragment" (by simp [CLASS_NAMES, h])
    have h1 : b.cls ≠ 1 := fun h => hnone "Fiber" (by simp [CLASS_NAMES, h])
    have h2 : b.cls ≠ 2 := fun h => hnone "Film" (by simp [CLASS_NAMES, h])
    have h3 : b.cls ≠ 3 := fun h => hnone "Pellet" (by simp [CLASS_NAMES, h])
    have e0 : (b.cls == 0) = false := beq_eq_false_iff_ne.mpr h0
    have e1 : (b.cls == 1) = false := beq_eq_false_iff_ne.mpr h1
    have e2 : (b.cls == 2) = false := beq_eq_false_iff_ne.mpr h2
    have e3 : (b.cls == 3) = false := beq_eq_false_iff_ne.mpr h3
    simp [realDetection, CLASS_NAMES, List.lookup, e0, e1, e2, e3]

/-- A concrete model emitting one box with a class id outside the table. -/
def sampleModel : Img → List RawBox := fun _ => [⟨5, 1/2, 0, 0, 1, 1⟩]

/-- Concrete instantiation of the C8 theorem: a single box with class id 5
(outside the table), with the membership hypothesis discharged. -/
theorem real_detect_fields_witness :
    ∃ det ∈ (real_detect (fun _ _ => []) sampleModel ⟨10, 10, []⟩).detections,
      det.class_id = (⟨5, 1/2, 0, 0, 1, 1⟩ : RawBox).cls ∧
      (∀ name, ((⟨5, 1/2, 0, 0, 1, 1⟩ : RawBox).cls, name) ∈ CLASS_NAMES →
        det.class_name = name) ∧
      ((∀ name, ((⟨5, 1/2, 0, 0, 1, 1⟩ : RawBox).cls, name) ∉ CLASS_NAMES) →
        det.class_name = "class_" ++ toString (⟨5, 1/2, 0, 0, 1, 1⟩ : RawBox).cls) ∧
      det.confidence = round4 (⟨5, 1/2, 0, 0, 1, 1⟩ : RawBox).conf ∧
      det.bbox.x1 = round2 (⟨5, 1/2, 0, 0, 1, 1⟩ : RawBox).x1 ∧
      det.bbox.y1 = round2 (⟨5, 1/2, 0, 0, 1, 1⟩ : RawBox).y1 ∧
      det.bbox.x2 = round2 (⟨5, 1/2, 0, 0, 1, 1⟩ : RawBox).x2 ∧
      det.bbox.y2 = round2 (⟨5, 1/2, 0, 0, 1, 1⟩ : RawBox).y2 := by
  exact real_detect_fields (fun _ _ => []) sampleModel ⟨10, 10, []⟩
    ⟨5, 1/2, 0, 0, 1, 1⟩ (by simp [sampleModel])

/-! ## Detector state and mode selection (detector.py / app.py) -/

/-- The detector: `self.model` is either `None` (file absent, demo mode)
or the loaded model, fixed for the process lifetime. -/
structure Detector where
  model : Option (Img → List RawBox)

/-- Embedding of `MicroplasticsDetector.detect`: real path when a model is
loaded, demo path otherwise; `draws` is the stream the freshly re-seeded
generator would yield. -/
def Detector.detect (d : Detector) (annotate : Annotator) (draws : List IterDraw)
    (img : Img) : DetectResult :=
  match d.model with
  | some m => real_detect annotate m img
  | none => demo_detect annotate img draws

/-- The `/api/health` response body. -/
structure HealthResponse where
  status : String
  model_loaded : Bool
  demo_mode : Bool
deriving DecidableEq

/-- Embedding of the `/api/health` handler. -/
def health (d : Detector) : HealthResponse :=
  { status := "ok"
    model_loaded := d.model.isSome
    demo_mode := d.model.isNone }

/-- C6: in every health response, `model_loaded` is the strict negation of
`demo_mode`; neither both-false nor both-true can occur. -/
theorem health_flags_negation (d : Detector) :
    (health d).model_loaded = !(health d).demo_mode ∧
    ¬((health d).model_loaded = false ∧ (health d).demo_mode = false) ∧
    ¬((health d).model_loaded = true ∧ (health d).demo_mode = true) := by
  obtain ⟨m⟩ := d
  cases m <;> simp [health]

/-! ## Classes endpoint (app.py, `get_classes`) -/

/-- Embedding of the `/api/classes` handler: the id/name pairs of the
fixed table, in table order.  The handler reads only the configuration
constant, never the detector or any request state. -/
def get_classes : List (ℕ × String) := CLASS_NAMES

/-- C7: the classes endpoint returns exactly the 4 fixed entries, in
order. -/
theorem get_classes_fixed :
    get_classes = [(0, "Fragment"), (1, "Fiber"), (2, "Film"), (3, "Pellet")] ∧
    get_classes.length = 4 :=
  ⟨rfl, rfl⟩

/-! ## Predict endpoint (app.py, `predict` and `_allowed_file`) -/

/-- Lowercased extension after the last dot, the model of
`filename.rsplit(".", 1)[1].lower()`. -/
def extAfterLastDot (f : List Char) : List Char :=
  ((f.reverse.takeWhile (fun c => c ≠ '.')).reverse).map Char.toLower

/-- Embedding of `_allowed_file`. -/
def allowed_file (filename : String) : Bool :=
  filename.toList.contains '.' &&
    ALLOWED_EXTENSIONS.contains (String.mk (extAfterLastDot filename.toList))

/-- A multipart file upload: submitted filename and raw content bytes. -/
structure MultipartFile where
  filename : String
  content : List ℕ
deriving DecidableEq

/-- An incoming `/api/predict` request: the optional "image" entry of
`request.files`, whether the body is JSON, and the optional "image" key
of the JSON body (a base64 string). -/
structure Request where
  fileField : Option MultipartFile
  isJson : Bool
  jsonImage : Option String
deriving DecidableEq

/-- The success body of `/api/predict`.  The per-request uuid is used
only for log correlation and is not modelled; `annotated_image` holds
the raw annotated bytes, which the handler both caches and base64-inlines. -/
structure PredictResponse where
  detections : List Detection
  summary : Summary
  annotated_image : List ℕ
deriving DecidableEq

/-- Outcome of one `/api/predict` call: a JSON success, a 400 response
with an error message, or an unhandled exception propagating to the
framework (a 500). -/
inductive PredictOutcome
  | ok : PredictResponse → PredictOutcome
  | badRequest : String → PredictOutcome
  | exception : PredictOutcome
deriving DecidableEq

/-- Embedding of the `predict` route handler.  `det` is
`detector.detect` (closed over the process-lifetime mode and, in demo
mode, the re-seeded draw stream); `openImage` is PIL's `Image.open`
(`none` = parse failure) and `b64decode` is `base64.b64decode` (`none` =
invalid base64).  On the multipart path `Image.open` is called outside
any try/except, so a parse failure there escapes as an exception; on the
JSON path both calls sit inside the try/except and fail with a 400. -/
def predict (det : Img → DetectResult) (openImage : List ℕ → Option Img)
    (b64decode : String → Option (List ℕ)) (req : Request) : PredictOutcome :=
  match req.fileField with
  | some f =>
      if f.filename = "" then .badRequest "No file selected"
      else if allowed_file f.filename = false then .badRequest "Unsupported file type"
      else
        match openImage f.content with
        | none => .exception
        | some img =>
            let r := det img
            .ok { detections := r.detections, summary := r.summary,
                  annotated_image := r.annotated_image }
  | none =>
      match req.isJson, req.jsonImage with
      | true, some s =>
          match b64decode s with
          | none => .badRequest "Invalid base64 image"
          | some bs =>
              match openImage bs with
              | none => .badRequest "Invalid base64 image"
              | some img =>
                  let r := det img
                  .ok { detections := r.detections, summary := r.summary,
                        annotated_image := r.annotated_image }
      | _, _ => .badRequest "No image provided"

/-- The bad inputs enumerated by the claim, relative to the given
decoders: no image in either carrier, empty filename, disallowed
extension, invalid base64, or invalid image bytes. -/
def isBadInput (openImage : List ℕ → Option Img)
    (b64decode : String → Option (List ℕ)) (req : Request) : Bool :=
  match req.fileField with
  | some f =>
      (f.filename == "") || (!allowed_file f.filename) || (openImage f.content).isNone
  | none =>
      match req.isJson, req.jsonImage with
      | true, some s =>
          match b64decode s with
          | none => true
          | some bs => (openImage bs).isNone
      | _, _ => true

/-- C3 (amended): every bad input fails before the detector is invoked
and never yields a success; the failure is a 400 with a message in every
case except invalid image bytes submitted through the multipart path,
which escape as an unhandled exception. -/
theorem predict_bad_input (det₁ det₂ : Img → DetectResult)
    (openImage : List ℕ → Option Img) (b64decode : String → Option (List ℕ))
    (req : Request) (h : isBadInput openImage b64decode req = true) :
    predict det₁ openImage b64decode req = predict det₂ openImage b64decode req ∧
    (∀ r, predict det₁ openImage b64decode req ≠ .ok r) ∧
    ((∃ msg, predict det₁ openImage b64decode req = .badRequest msg) ∨
      (predict det₁ openImage b64decode req = .exception ∧
        ∃ f, req.fileField = some f ∧ f.filename ≠ "" ∧
          allowed_file f.filename = true ∧ openImage f.content = none)) := by
  obtain ⟨ff, isJ, js⟩ := req
  cases ff with
  | some f =>
      by_cases he : f.filename = ""
      · simp [predict, he]
      · by_cases ha : allowed_file f.filename = true
        · have hio : openImage f.content = none := by
            simp [isBadInput, he, ha, Option.isNone_iff_eq_none] at h
            exact h
          refine ⟨by simp [predict, he, ha, hio], by simp [predict, he, ha, hio], ?_⟩
          exact Or.inr ⟨by simp [predict, he, ha, hio], f, rfl, he, ha, hio⟩
        · have ha' : allowed_file f.filename = false := by
            cases haf : allowed_file f.filename
            · rfl
            · exact absurd haf ha
          simp [predict, he, ha']
  | none =>
      cases isJ with
      | false => simp [predict]
      | true =>
          cases js with
          | none => simp [predict]
          | some s =>
              cases hb : b64decode s with
              | none => simp [predict, hb]
              | some bs =>
                  cases ho : openImage bs with
                  | none => simp [predict, hb, ho]
                  | some img =>
                      exfalso
                      simp [isBadInput, hb, ho] at h

/-- A detector function used for concrete instantiations: demo mode with
an empty draw stream and an annotator returning no bytes. -/
def demoDet : Img → DetectResult := fun img => demo_detect (fun _ _ => []) img []

/-- An image parser that rejects every byte string. -/
def rejectAll : List ℕ → Option Img := fun _ => none

/-- A base64 decoder stub that accepts everything. -/
def b64stub : String → Option (List ℕ) := fun _ => some []

/-- A request carrying an allow-listed filename whose bytes do not parse
as an image. -/
def badBytesReq : Request :=
  { fileField := some ⟨"x.png", [0]⟩, isJson := false, jsonImage := none }

/-- C3 counterexample: invalid image bytes submitted through the
multipart path are a bad input per the claim, yet the request is not
rejected with a 400 — the parse failure escapes as an unhandled
exception. -/
theorem predict_bad_input_cex :
    isBadInput rejectAll b64stub badBytesReq = true ∧
    predict demoDet rejectAll b64stub badBytesReq = .exception ∧
    ∀ msg, predict demoDet rejectAll b64stub badBytesReq ≠ .badRequest msg := by
  refine ⟨by decide, by decide, ?_⟩
  intro msg
  intro hcontra
  rw [show predict demoDet rejectAll b64stub badBytesReq = .exception by decide] at hcontra
  cases hcontra

/-- A request with no image in either carrier. -/
def emptyReq : Request := { fileField := none, isJson := false, jsonImage := none }

/-- A second detector function, different from `demoDet`, to instantiate
the detector-independence conjunct. -/
def demoDet2 : Img → DetectResult := fun img => demo_detect (fun _ _ => [9]) img []

/-- Concrete instantiation of the C3 theorem at a request with no image
field at all, with the bad-input hypothesis discharged. -/
theorem predict_bad_input_witness :
    predict demoDet rejectAll b64stub emptyReq = predict demoDet2 rejectAll b64stub emptyReq ∧
    (∀ r, predict demoDet rejectAll b64stub emptyReq ≠ .ok r) ∧
    ((∃ msg, predict demoDet rejectAll b64stub emptyReq = .badRequest msg) ∨
      (predict demoDet rejectAll b64stub emptyReq = .exception ∧
        ∃ f, emptyReq.fileField = some f ∧ f.filename ≠ "" ∧
          allowed_file f.filename = true ∧ rejectAll f.content = none)) :=
  predict_bad_input demoDet demoDet2 rejectAll b64stub emptyReq (by decide)

/-- C4: one image submitted through either encoding produces the same
result: a multipart request and a base64-JSON request that decode to the
same image yield identical detections, summaries and annotated bytes
(the handler feeds the decoded image to the same `detector.detect` in
both branches; the per-request uuid carries no detection content and is
not modelled). -/
theorem predict_encoding_agnostic (det : Img → DetectResult)
    (openImage : List ℕ → Option Img) (b64decode : String → Option (List ℕ))
    (f : MultipartFile) (s : String) (img : Img) (bs : List ℕ)
    (h1 : ¬ f.filename = "") (h2 : allowed_file f.filename = true)
    (h3 : openImage f.content = some img)
    (h4 : b64decode s = some bs) (h5 : openImage bs = some img) :
    predict det openImage b64decode ⟨some f, false, none⟩ =
      predict det openImage b64decode ⟨none, true, some s⟩ := by
  simp [predict, h1, h2, h3, h4, h5]

/-- An image parser that accepts exactly the byte string `[1]`. -/
def openOnly1 : List ℕ → Option Img :=
  fun bs => if bs = [1] then some ⟨2, 2, [0]⟩ else none

/-- A base64 decoder that decodes everything to the byte string `[1]`. -/
def b64to1 : String → Option (List ℕ) := fun _ => some [1]

/-- Concrete instantiation of the C4 theorem: the same image submitted as
the multipart file `a.png` and as a base64 JSON field, with all five
decoding hypotheses discharged. -/
theorem predict_encoding_agnostic_witness :
    predict demoDet openOnly1 b64to1 ⟨some ⟨"a.png", [1]⟩, false, none⟩ =
      predict demoDet openOnly1 b64to1 ⟨none, true, some "QUFBQQ=="⟩ :=
  predict_encoding_agnostic demoDet openOnly1 b64to1 ⟨"a.png", [1]⟩ "QUFBQQ=="
    ⟨2, 2, [0]⟩ [1] (by decide) (by decide) (by decide) (by decide) (by decide)

/-- C10: when a request carries both encodings at once, the multipart
file takes precedence and the JSON body is ignored entirely: the outcome
is that of the same request with the JSON body stripped.  The handler
checks `request.files` first and never reads the JSON body in that
branch, so the request is not rejected for carrying two encodings. -/
theorem predict_multipart_precedence (det : Img → DetectResult)
    (openImage : List ℕ → Option Img) (b64decode : String → Option (List ℕ))
    (f : MultipartFile) (isJ : Bool) (js : Option String) :
    predict det openImage b64decode ⟨some f, isJ, js⟩ =
      predict det openImage b64decode ⟨some f, false, none⟩ := rfl

/-! ## Last-annotated-image cache (app.py, `_last_annotated` / `get_annotated`) -/

/-- The cache update a single `/api/predict` call performs: a success
overwrites the single slot with its annotated bytes
(`_last_annotated["bytes"] = ...`); a 400 or an exception returns before
the write and leaves the slot unchanged. -/
def stepCache (cache : Option (List ℕ)) (out : PredictOutcome) : Option (List ℕ) :=
  match out with
  | .ok r => some r.annotated_image
  | _ => cache

/-- Embedding of the `get_annotated` handler: 404 with a message when the
slot was never written, the cached bytes otherwise. -/
def get_annotated (cache : Option (List ℕ)) : Except (ℕ × String) (List ℕ) :=
  match cache with
  | none => .error (404, "No annotated image available. Run /api/predict first.")
  | some bs => .ok bs

/-- One step of scanning for the most recent success. -/
def okStep (acc : Option PredictResponse) (out : PredictOutcome) :
    Option PredictResponse :=
  match out with
  | .ok r => some r
  | _ => acc

/-- The most recent successful response in a list of outcomes, if any. -/
def lastOk (outs : List PredictOutcome) : Option PredictResponse :=
  outs.foldl okStep none

theorem foldl_okStep_eq (outs : List PredictOutcome) (a : Option PredictResponse) :
    outs.foldl okStep a =
      match lastOk outs with
      | some r => some r
      | none => a := by
  induction outs generalizing a with
  | nil => simp [lastOk]
  | cons o rest ih =>
      show rest.foldl okStep (okStep a o) = _
      rw [ih (okStep a o)]
      have hcons : lastOk (o :: rest) =
          match lastOk rest with
          | some r => some r
          | none => okStep none o := by
        show rest.foldl okStep (okStep none o) = _
        rw [ih (okStep none o)]
      rw [hcons]
      cases hrest : lastOk rest with
      | some r => rfl
      | none => cases o <;> rfl

theorem foldl_stepCache_eq (outs : List PredictOutcome) (c : Option (List ℕ)) :
    outs.foldl stepCache c =
      match lastOk outs with
      | some r => some r.annotated_image
      | none => c := by
  induction outs generalizing c with
  | nil => simp [lastOk]
  | cons o rest ih =>
      show rest.foldl stepCache (stepCache c o) = _
      rw [ih (stepCache c o)]
      have hcons : lastOk (o :: rest) =
          match lastOk rest with
          | some r => some r
          | none => okStep none o := by
        show rest.foldl okStep (okStep none o) = _
        rw [foldl_okStep_eq rest (okStep none o)]
      rw [hcons]
      cases hrest : lastOk rest with
      | some r => rfl
      | none => cases o <;> rfl

theorem lastOk_eq_none_iff (outs : List PredictOutcome) :
    lastOk outs = none ↔ ∀ o ∈ outs, ∀ r, o ≠ PredictOutcome.ok r := by
  induction outs with
  | nil => simp [lastOk]
  | cons o rest ih =>
      have hcons : lastOk (o :: rest) =
          match lastOk rest with
          | some r => some r
          | none => okStep none o := by
        show rest.foldl okStep (okStep none o) = _
        rw [foldl_okStep_eq rest (okStep none o)]
      rw [hcons]
      constructor
      · intro h
        cases hrest : lastOk rest with
        | some r => rw [hrest] at h; cases h
        | none =>
            rw [hrest] at h
            intro x hx r
            rcases List.mem_cons.mp hx with rfl | hx'
            · intro hxo
              subst hxo
              cases h
            · exact (ih.mp hrest) x hx' r
      · intro h
        have hrest : lastOk rest = none :=
          ih.mpr (fun x hx r => h x (List.mem_cons_of_mem o hx) r)
        rw [hrest]
        cases o with
        | ok r => exact absurd rfl (h (.ok r) (List.mem_cons_self _ _) r)
        | badRequest m => rfl
        | exception => rfl

/-- C5: after any sequence of predict calls in a fresh process, the
annotated endpoint 404s with its message exactly when no call succeeded;
otherwise it returns precisely the annotated bytes of the most recent
successful call — each success overwrites the single slot, so the last
writer wins. -/
theorem get_annotated_last_writer (det : Img → DetectResult)
    (openImage : List ℕ → Option Img) (b64decode : String → Option (List ℕ))
    (reqs : List Request) :
    (get_annotated ((reqs.map (predict det openImage b64decode)).foldl stepCache none) =
        .error (404, "No annotated image available. Run /api/predict first.") ↔
      ∀ req ∈ reqs, ∀ r, predict det openImage b64decode req ≠ .ok r) ∧
    ∀ r, lastOk (reqs.map (predict det openImage b64decode)) = some r →
      get_annotated ((reqs.map (predict det openImage b64decode)).foldl stepCache none) =
        .ok r.annotated_image := by
  rw [foldl_stepCache_eq]
  constructor
  · cases hlast : lastOk (reqs.map (predict det openImage b64decode)) with
    | some r =>
        simp only [get_annotated]
        constructor
        · intro h
          cases h
        · intro h
          exfalso
          have : ∀ o ∈ reqs.map (predict det openImage b64decode), ∀ r0,
              o ≠ PredictOutcome.ok r0 := by
            intro o ho r0
            rcases List.mem_map.mp ho with ⟨req, hreq, rfl⟩
            exact h req hreq r0
          rw [(lastOk_eq_none_iff _).mpr this] at hlast
          cases hlast
    | none =>
        simp only [get_annotated]
        constructor
        · intro _
          intro req hreq r0
          have := (lastOk_eq_none_iff _).mp hlast
          exact this _ (List.mem_map_of_mem _ hreq) r0
        · intro _
          trivial
  · intro r hr
    rw [hr]
    rfl

/-- A request carrying a valid multipart upload that `openOnly1` accepts. -/
def goodReq : Request :=
  { fileField := some ⟨"a.png", [1]⟩, isJson := false, jsonImage := none }

/-- Concrete instantiation of the C5 theorem: a one-request trace whose
single predict call succeeds, with the `lastOk` hypothesis discharged. -/
theorem get_annotated_last_writer_witness :
    get_annotated (([goodReq].map (predict demoDet openOnly1 b64stub)).foldl
        stepCache none) =
      .ok (⟨[], ⟨0, [], 0, 0, true⟩, []⟩ : PredictResponse).annotated_image :=
  (get_annotated_last_writer demoDet openOnly1 b64stub [goodReq]).2
    ⟨[], ⟨0, [], 0, 0, true⟩, []⟩ (by decide)
